import Mathlib

/-!
Verification development for the ghkeys utility (src/ghkeys.py).

The program is shallowly embedded: network effects are abstracted by an
oracle mapping each request (by position in the username list) to an
`HttpOutcome`; the filesystem is a map from path strings to optional file
contents; `main` is modelled as a function producing a trace of effects.
Python string operations are modelled faithfully: `str.strip()` removes the
ASCII whitespace characters from both ends, string truthiness of an
optional string treats `None` and the empty string as falsy, and
`str.splitlines()` is modelled with the newline character as the line
boundary.
-/

namespace Ghkeys

/-- Whitespace characters removed by Python `str.strip()` (ASCII subset). -/
def pyIsSpace (c : Char) : Bool :=
  c = ' ' || c = '\t' || c = '\n' || c = '\r' || c = '\x0b' || c = '\x0c'

/-- Strip whitespace from both ends of a character list, left end first,
as Python `str.strip()` does. -/
def stripChars (l : List Char) : List Char :=
  (l.dropWhile pyIsSpace).rdropWhile pyIsSpace

/-- Model of Python `str.strip()`. -/
def pyStrip (s : String) : String :=
  String.mk (stripChars s.data)

/-- Accumulating scanner behind `splitlines`: `cur` holds the characters of
the current line in reverse. Input exhausted on a pending empty line yields
nothing further, so a trailing newline does not contribute an empty final
line (as in Python). -/
def splitlinesAux : List Char → List Char → List String
  | [], cur => if cur = [] then [] else [String.mk cur.reverse]
  | c :: rest, cur =>
      if c = '\n' then String.mk cur.reverse :: splitlinesAux rest []
      else splitlinesAux rest (c :: cur)

/-- Model of Python `str.splitlines()`, with the newline character as the
line boundary: the empty string yields no lines, and a single trailing
newline does not contribute an empty final line. -/
def splitlines (s : String) : List String :=
  splitlinesAux s.data []

/-- Python truthiness of an optional string: `None` and `""` are falsy. -/
def strTruthy : Option String → Bool
  | none => false
  | some s => s ≠ ""

/-- The per-user result record (class FetchResult, src/ghkeys.py lines 33-36). -/
structure FetchResult where
  user : String
  keys : Option String
  error : Option String
deriving DecidableEq

/-- Outcome of one HTTP GET as seen by `fetch_keys`: a response with status
and body text, a timeout, or any other raised failure with its description. -/
inductive HttpOutcome where
  | response (status : Nat) (body : String)
  | timeout
  | exception (msg : String)
deriving DecidableEq

/-- Embedding of `fetch_keys` (src/ghkeys.py lines 39-55): the HTTP outcome
for the user is mapped to a `FetchResult`; totality of this function is the
model of the guarantee that `fetch_keys` never raises. -/
def fetch_keys (user : String) (oc : HttpOutcome) : FetchResult :=
  match oc with
  | HttpOutcome.response status body =>
      if status = 404 then ⟨user, none, some "User not found"⟩
      else if status ≠ 200 then ⟨user, none, some ("HTTP " ++ toString status)⟩
      else
        let text := pyStrip body
        if text = "" then ⟨user, none, some "No keys found"⟩
        else ⟨user, some text, none⟩
  | HttpOutcome.timeout => ⟨user, none, some "Request timed out"⟩
  | HttpOutcome.exception msg => ⟨user, none, some msg⟩

/-- Placeholder result used as the fill value of the gather model. -/
def emptyResult : FetchResult := ⟨"", none, none⟩

/-- Embedding of `fetch_all` (src/ghkeys.py lines 58-63): one `fetch_keys`
task per username, results in input order (the contract of
`asyncio.gather`). The network oracle `net` gives the outcome of the request
launched for position `i`. -/
def fetch_all (users : List String) (net : Nat → HttpOutcome) : List FetchResult :=
  (List.range users.length).map (fun i => fetch_keys (users.getD i "") (net i))

/-- Operational model of result collection in `asyncio.gather`: tasks complete
in the order given by `sched` (a permutation of the task indices); as each
task `i` completes, its result is stored in slot `i` of the output. -/
def gatherRun (tasks : List FetchResult) (sched : List Nat) : List FetchResult :=
  sched.foldl (fun acc i => acc.set i (tasks.getD i emptyResult))
    (List.replicate tasks.length emptyResult)

/-- Accumulator of the loop in `format_results` (src/ghkeys.py lines 86-101):
the collected payload blocks, the error flag, and the diagnostic lines
printed to stderr. -/
structure FmtState where
  combined : List String
  had_errors : Bool
  diags : List String
deriving DecidableEq

/-- One iteration of the loop in `format_results` (src/ghkeys.py lines 90-101). -/
def formatStep (inline : Bool) (st : FmtState) (r : FetchResult) : FmtState :=
  if strTruthy r.error then
    ⟨st.combined, true, st.diags ++ [r.user ++ ": " ++ r.error.getD ""]⟩
  else if strTruthy r.keys then
    if inline then
      ⟨st.combined ++
        ((splitlines (r.keys.getD "")).filter (fun l => pyStrip l ≠ "")).map
          (fun l => l ++ " " ++ r.user),
        st.had_errors, st.diags⟩
    else
      ⟨st.combined ++ ["# " ++ r.user ++ "\n" ++ r.keys.getD "" ++ "\n"],
        st.had_errors, st.diags⟩
  else st

/-- The loop of `format_results` over all results. -/
def formatFold (inline : Bool) (results : List FetchResult) : FmtState :=
  results.foldl (formatStep inline) ⟨[], false, []⟩

/-- Embedding of `format_results` (src/ghkeys.py lines 86-102): the returned
pair of the normalized payload and the error flag. -/
def format_results (results : List FetchResult) (inline : Bool) : String × Bool :=
  let st := formatFold inline results
  (pyStrip (String.intercalate "\n" st.combined) ++ "\n", st.had_errors)

/-- The diagnostic lines `format_results` prints to stderr, in order. -/
def formatDiags (results : List FetchResult) (inline : Bool) : List String :=
  (formatFold inline results).diags

/-- One element of the JSON array built in `main` (src/ghkeys.py lines 119-122). -/
structure JsonEntry where
  user : String
  keys : List String
  error : Option String
deriving DecidableEq

/-- JSON string escaping for one character. -/
def jsonEscapeChar (c : Char) : String :=
  if c = '"' then "\\\""
  else if c = '\\' then "\\\\"
  else if c = '\n' then "\\n"
  else if c = '\r' then "\\r"
  else if c = '\t' then "\\t"
  else String.singleton c

/-- JSON rendering of a string literal. -/
def jsonStr (s : String) : String :=
  "\"" ++ String.join (s.data.map jsonEscapeChar) ++ "\""

/-- JSON rendering of the keys list of one entry, pretty-printed at the
nesting depth used by `json.dumps(data, indent=2)`. -/
def jsonKeysStr (ks : List String) : String :=
  if ks = [] then "[]"
  else "[\n      " ++ String.intercalate ",\n      " (ks.map jsonStr) ++ "\n    ]"

/-- JSON rendering of one entry of the array. -/
def jsonEntryStr (e : JsonEntry) : String :=
  "  \x7b\n    \"user\": " ++ jsonStr e.user ++ ",\n    \"keys\": " ++
    jsonKeysStr e.keys ++ ",\n    \"error\": " ++
    (match e.error with
     | none => "null"
     | some s => jsonStr s) ++ "\n  \x7d"

/-- Model of `json.dumps(data, indent=2)` on the list built in `main`. -/
def jsonDumps (entries : List JsonEntry) : String :=
  if entries = [] then "[]"
  else "[\n" ++ String.intercalate ",\n" (entries.map jsonEntryStr) ++ "\n]"

/-- The structured JSON data built in `main` (src/ghkeys.py lines 119-122):
one entry per result, keys split into lines (empty list when the keys field
is falsy), error passed through. -/
def jsonData (results : List FetchResult) : List JsonEntry :=
  results.map (fun r =>
    ⟨r.user, if strTruthy r.keys then splitlines (r.keys.getD "") else [], r.error⟩)

/-- Parsed command-line configuration (src/ghkeys.py lines 106-114). -/
structure Args where
  users : List String
  inline : Bool
  json : Bool
  append : Bool
  output : Option String
  force : Bool
deriving DecidableEq

/-- Observable effects of one run: writes to the two output streams, file
operations, and process exit. -/
inductive Effect where
  | stdout (s : String)
  | stderr (s : String)
  | mkdirParents (path : String)
  | writeFile (path : String) (content : String)
  | appendFile (path : String) (content : String)
  | exit (code : Nat)
deriving DecidableEq

/-- The filesystem, modelled as a map from path to optional file content. -/
abbrev FS := String → Option String

/-- Application of one effect to the filesystem: `writeFile` replaces the
content, `appendFile` appends to the (possibly absent) file, everything else
leaves the files unchanged. -/
def applyEffect (fs : FS) (e : Effect) : FS :=
  match e with
  | Effect.writeFile p c => fun q => if q = p then some c else fs q
  | Effect.appendFile p c => fun q => if q = p then some ((fs p).getD "" ++ c) else fs q
  | _ => fs

/-- Final filesystem after a trace of effects. -/
def applyTrace (fs : FS) (tr : List Effect) : FS :=
  tr.foldl applyEffect fs

/-- Process exit code of a trace: the code of the first `exit` effect, or 0
when the run ends without an explicit exit. -/
def exitCode : List Effect → Nat
  | [] => 0
  | Effect.exit c :: _ => c
  | _ :: t => exitCode t

/-- Effects that only write to the diagnostic stream. -/
def allStderr (tr : List Effect) : Bool :=
  tr.all (fun e => match e with | Effect.stderr _ => true | _ => false)

/-- The default append target `~/.ssh/authorized_keys` (path expansion of
`~` is not modelled; paths are plain strings). -/
def defaultAuthKeys : String := "~/.ssh/authorized_keys"

/-- The append target chosen in `main` (src/ghkeys.py line 135): the
explicit output path when it is truthy, else the default authorized-keys
path. -/
def appendTarget (output : Option String) : String :=
  if strTruthy output then output.getD "" else defaultAuthKeys

/-- Diagnostic prefix of the text-mode trace: the per-user error lines
printed by `format_results`, followed by the blank separating line printed
when any user erred (src/ghkeys.py lines 131-132). -/
def diagPre (results : List FetchResult) (inline : Bool) : List Effect :=
  (formatDiags results inline).map Effect.stderr ++
    (if (format_results results inline).2 then [Effect.stderr ""] else [])

/-- The sink dispatch of `main` (src/ghkeys.py lines 134-140) on a non-empty
payload: append via `safe_append` (lines 79-83), write via `safe_write` with
`confirm_overwrite` (lines 66-77), or print to stdout. -/
def sinkRest (args : Args) (fs : FS) (combined : String) : List Effect :=
  if args.append then
    [Effect.mkdirParents (appendTarget args.output),
     Effect.appendFile (appendTarget args.output) combined,
     Effect.stderr ("Appended keys to " ++ appendTarget args.output)]
  else if strTruthy args.output then
    let out := args.output.getD ""
    if (fs out).isSome && !args.force then
      [Effect.stderr ("File " ++ out ++ " already exists. Use --force to overwrite."),
       Effect.exit 1]
    else
      [Effect.mkdirParents out, Effect.writeFile out combined,
       Effect.stderr ("Wrote keys to " ++ out)]
  else
    [Effect.stdout combined]

/-- Embedding of `main` after argument parsing (src/ghkeys.py lines 116-140)
as the trace of effects of one run: fetch all users, then either print JSON,
or format the text payload, stop on an empty payload, and dispatch to the
append / write / stdout sink. -/
def runMain (args : Args) (net : Nat → HttpOutcome) (fs : FS) : List Effect :=
  let results := fetch_all args.users net
  if args.json then
    [Effect.stdout (jsonDumps (jsonData results))]
  else
    let fr := format_results results args.inline
    if pyStrip fr.1 = "" then
      (formatDiags results args.inline).map Effect.stderr ++
        [Effect.stderr "No keys fetched."]
    else
      diagPre results args.inline ++ sinkRest args fs fr.1

/-- Per-result contribution to the payload in inline mode: the non-blank
lines of the key block, each annotated with the username. -/
def inlineContrib (r : FetchResult) : List String :=
  match r.keys with
  | none => []
  | some k =>
      ((splitlines k).filter (fun l => pyStrip l ≠ "")).map (fun l => l ++ " " ++ r.user)

theorem stripChars_idem (l : List Char) : stripChars (stripChars l) = stripChars l := by
  have hpre : (l.dropWhile pyIsSpace).rdropWhile pyIsSpace <+: l.dropWhile pyIsSpace :=
    List.rdropWhile_prefix pyIsSpace (l.dropWhile pyIsSpace)
  have ha : (l.dropWhile pyIsSpace).dropWhile pyIsSpace = l.dropWhile pyIsSpace :=
    List.dropWhile_idempotent pyIsSpace l
  have hm : (stripChars l).dropWhile pyIsSpace = stripChars l := by
    rw [List.dropWhile_eq_self_iff]
    intro hl
    have hlen : 0 < (l.dropWhile pyIsSpace).length :=
      Nat.lt_of_lt_of_le hl hpre.length_le
    have h0 := (List.dropWhile_eq_self_iff.mp ha) hlen
    have hget : (stripChars l).get ⟨0, hl⟩ = (l.dropWhile pyIsSpace).get ⟨0, hlen⟩ := by
      simp only [List.get_eq_getElem]
      exact hpre.getElem hl
    rw [hget]
    exact h0
  calc stripChars (stripChars l)
      = ((stripChars l).dropWhile pyIsSpace).rdropWhile pyIsSpace := rfl
    _ = (stripChars l).rdropWhile pyIsSpace := by rw [hm]
    _ = ((l.dropWhile pyIsSpace).rdropWhile pyIsSpace).rdropWhile pyIsSpace := rfl
    _ = (l.dropWhile pyIsSpace).rdropWhile pyIsSpace :=
        List.rdropWhile_idempotent pyIsSpace (l.dropWhile pyIsSpace)
    _ = stripChars l := rfl

theorem pyStrip_idem (s : String) : pyStrip (pyStrip s) = pyStrip s :=
  congrArg String.mk (stripChars_idem s.data)

/-- C5: for every result sequence and either text mode, the payload equals
the joined per-user blocks trimmed of leading and trailing whitespace with
exactly one newline appended, so it always ends in exactly one newline and
its trimmed core neither starts nor ends with whitespace. -/
theorem c5_payload_normalized (results : List FetchResult) (inline : Bool) :
    (format_results results inline).1 =
      pyStrip (String.intercalate "\n" (formatFold inline results).combined) ++ "\n" ∧
    ∃ core, (format_results results inline).1 = core ++ "\n" ∧ pyStrip core = core := by
  refine ⟨rfl, pyStrip (String.intercalate "\n" (formatFold inline results).combined),
    rfl, ?_⟩
  exact pyStrip_idem _

/-- C1: `fetch_keys` is total on every modelled HTTP outcome (it never
propagates a failure), and maps each outcome as specified: 404 to
"User not found", any other non-200 status to "HTTP " followed by the
status, a 200 body that trims to empty to "No keys found", a 200 body with
non-empty trimmed text to a success carrying the trimmed body, a timeout to
"Request timed out", and any other failure to its description string. -/
theorem c1_fetch_keys_outcomes (u body msg : String) (status : Nat) :
    fetch_keys u (HttpOutcome.response 404 body) = ⟨u, none, some "User not found"⟩ ∧
    (status ≠ 404 → status ≠ 200 →
      fetch_keys u (HttpOutcome.response status body) =
        ⟨u, none, some ("HTTP " ++ toString status)⟩) ∧
    (pyStrip body = "" →
      fetch_keys u (HttpOutcome.response 200 body) = ⟨u, none, some "No keys found"⟩) ∧
    (pyStrip body ≠ "" →
      fetch_keys u (HttpOutcome.response 200 body) = ⟨u, some (pyStrip body), none⟩) ∧
    fetch_keys u HttpOutcome.timeout = ⟨u, none, some "Request timed out"⟩ ∧
    fetch_keys u (HttpOutcome.exception msg) = ⟨u, none, some msg⟩ := by
  refine ⟨rfl, ?_, ?_, ?_, rfl, rfl⟩
  · intro h404 h200
    simp [fetch_keys, h404, h200]
  · intro hempty
    simp [fetch_keys, hempty]
  · intro hne
    simp [fetch_keys, hne]

theorem c1_witness :
    fetch_keys "alice" (HttpOutcome.response 503 "x") = ⟨"alice", none, some "HTTP 503"⟩ ∧
    fetch_keys "alice" (HttpOutcome.response 200 " \t") =
      ⟨"alice", none, some "No keys found"⟩ ∧
    fetch_keys "alice" (HttpOutcome.response 200 " k1 ") = ⟨"alice", some "k1", none⟩ := by
  refine ⟨?_, ?_, ?_⟩
  · exact ((c1_fetch_keys_outcomes "alice" "x" "" 503).2.1 (by decide)
      (by decide)).trans (by decide)
  · exact (c1_fetch_keys_outcomes "alice" " \t" "" 503).2.2.1 (by decide)
  · exact ((c1_fetch_keys_outcomes "alice" " k1 " "" 503).2.2.2.1 (by decide)).trans
      (by decide)

theorem fetch_keys_user (u : String) (oc : HttpOutcome) : (fetch_keys u oc).user = u := by
  cases oc with
  | response status body =>
      by_cases h404 : status = 404
      · simp [fetch_keys, h404]
      · by_cases h200 : status = 200
        · subst h200
          by_cases he : pyStrip body = "" <;> simp [fetch_keys, he]
        · simp [fetch_keys, h404, h200]
  | timeout => rfl
  | exception m => rfl

/-- C9: every result produced by `fetch_keys` has exactly one meaningful
field, in the sense that the keys field is present precisely when the error
field is absent; in particular a 200 response whose body trims to empty is
an error result, never a success with empty keys. -/
theorem c9_exactly_one (u body : String) (oc : HttpOutcome) :
    ((fetch_keys u oc).keys.isSome ↔ (fetch_keys u oc).error = none) ∧
    (pyStrip body = "" →
      fetch_keys u (HttpOutcome.response 200 body) = ⟨u, none, some "No keys found"⟩) := by
  constructor
  · cases oc with
    | response status b =>
        by_cases h404 : status = 404
        · simp [fetch_keys, h404]
        · by_cases h200 : status = 200
          · subst h200
            by_cases he : pyStrip b = "" <;> simp [fetch_keys, he]
          · simp [fetch_keys, h404, h200]
    | timeout => simp [fetch_keys]
    | exception m => simp [fetch_keys]
  · intro h
    simp [fetch_keys, h]

theorem c9_witness :
    ((fetch_keys "a" (HttpOutcome.response 200 "k")).keys.isSome ↔
      (fetch_keys "a" (HttpOutcome.response 200 "k")).error = none) ∧
    fetch_keys "a" (HttpOutcome.response 200 " \n") = ⟨"a", none, some "No keys found"⟩ :=
  ⟨(c9_exactly_one "a" " \n" (HttpOutcome.response 200 "k")).1,
   (c9_exactly_one "a" " \n" (HttpOutcome.response 200 "k")).2 (by decide)⟩

theorem formatStep_inline_combined (st : FmtState) (r : FetchResult) :
    (formatStep true st r).combined =
      st.combined ++ (if strTruthy r.error then [] else inlineContrib r) := by
  cases he : r.error with
  | some e =>
      by_cases hee : e = ""
      · subst hee
        cases hk : r.keys with
        | none => simp [formatStep, he, strTruthy, inlineContrib, hk]
        | some k =>
            by_cases hkne : k = ""
            · subst hkne
              simp [formatStep, he, strTruthy, inlineContrib, hk, splitlines,
                splitlinesAux]
            · simp [formatStep, he, strTruthy, inlineContrib, hk, hkne]
      · simp [formatStep, he, strTruthy, hee]
  | none =>
      cases hk : r.keys with
      | none => simp [formatStep, he, strTruthy, inlineContrib, hk]
      | some k =>
          by_cases hkne : k = ""
          · subst hkne
            simp [formatStep, he, strTruthy, inlineContrib, hk, splitlines,
              splitlinesAux]
          · simp [formatStep, he, strTruthy, inlineContrib, hk, hkne]

theorem formatFold_inline_aux (results : List FetchResult) :
    ∀ st : FmtState,
      (results.foldl (formatStep true) st).combined =
        st.combined ++
          ((results.filter (fun r => !strTruthy r.error)).map inlineContrib).flatten := by
  induction results with
  | nil =>
      intro st
      simp
  | cons r rest ih =>
      intro st
      rw [List.foldl_cons, ih, formatStep_inline_combined st r]
      by_cases he : strTruthy r.error
      · simp [he]
      · simp [he]

/-- C6: with inline annotation enabled, for every result sequence the
payload blocks are exactly, for each result in order whose error field is
falsy, the non-blank lines of its key block each followed by one space and
the username; results carrying an error contribute nothing, blank lines are
omitted and no header line is emitted for any user. -/
theorem c6_inline_per_line (results : List FetchResult) :
    (formatFold true results).combined =
      ((results.filter (fun r => !strTruthy r.error)).map inlineContrib).flatten := by
  have := formatFold_inline_aux results ⟨[], false, []⟩
  simpa [formatFold] using this

theorem c6_witness :
    (formatFold true
      [(⟨"alice", some "ssh-rsa AAA\n \nssh-ed BBB", none⟩ : FetchResult),
       (⟨"ghost404", none, some "User not found"⟩ : FetchResult)]).combined =
      ["ssh-rsa AAA alice", "ssh-ed BBB alice"] :=
  (c6_inline_per_line
      [⟨"alice", some "ssh-rsa AAA\n \nssh-ed BBB", none⟩,
       ⟨"ghost404", none, some "User not found"⟩]).trans (by decide)

theorem gatherRun_foldl_length (tasks : List FetchResult) (sched : List Nat) :
    ∀ init : List FetchResult,
      (sched.foldl (fun acc i => acc.set i (tasks.getD i emptyResult)) init).length
        = init.length := by
  induction sched with
  | nil => intro init; rfl
  | cons j rest ih =>
      intro init
      rw [List.foldl_cons, ih]
      simp

theorem gatherRun_foldl_keep (tasks : List FetchResult) (sched : List Nat) :
    ∀ (init : List FetchResult) (i : Nat),
      init.length = tasks.length → i < tasks.length →
      init.getD i emptyResult = tasks.getD i emptyResult →
      (sched.foldl (fun acc i => acc.set i (tasks.getD i emptyResult)) init).getD
          i emptyResult = tasks.getD i emptyResult := by
  induction sched with
  | nil =>
      intro init i _ _ h
      exact h
  | cons j rest ih =>
      intro init i hlen hi hkeep
      rw [List.foldl_cons]
      apply ih _ i (by simp [hlen]) hi
      by_cases hji : j = i
      · subst hji
        have hj : j < init.length := hlen ▸ hi
        rw [List.getD_eq_getElem?_getD, List.getElem?_set_self hj]
        rfl
      · rw [List.getD_eq_getElem?_getD, List.getElem?_set_ne hji,
          ← List.getD_eq_getElem?_getD]
        exact hkeep

theorem gatherRun_foldl_mem (tasks : List FetchResult) (sched : List Nat) :
    ∀ (init : List FetchResult) (i : Nat),
      init.length = tasks.length → i < tasks.length → i ∈ sched →
      (sched.foldl (fun acc i => acc.set i (tasks.getD i emptyResult)) init).getD
          i emptyResult = tasks.getD i emptyResult := by
  induction sched with
  | nil =>
      intro init i _ _ h
      exact absurd h (List.not_mem_nil i)
  | cons j rest ih =>
      intro init i hlen hi hmem
      rw [List.foldl_cons]
      rcases List.mem_cons.mp hmem with hij | hmem'
      · subst hij
        apply gatherRun_foldl_keep tasks rest _ i (by simp [hlen]) hi
        have hj : i < init.length := hlen ▸ hi
        rw [List.getD_eq_getElem?_getD, List.getElem?_set_self hj]
        rfl
      · exact ih _ i (by simp [hlen]) hi hmem'

theorem gatherRun_eq_of_covering (tasks : List FetchResult) (sched : List Nat)
    (h : ∀ i, i < tasks.length → i ∈ sched) : gatherRun tasks sched = tasks := by
  have hlen : (gatherRun tasks sched).length = tasks.length := by
    rw [gatherRun, gatherRun_foldl_length]
    simp
  apply List.ext_getElem hlen
  intro n h1 h2
  have hx := gatherRun_foldl_mem tasks sched (List.replicate tasks.length emptyResult) n
    (by simp) h2 (h n h2)
  rw [List.getD_eq_getElem?_getD, List.getD_eq_getElem?_getD,
    List.getElem?_eq_getElem h2] at hx
  have h1' : n < (sched.foldl (fun acc i => acc.set i (tasks.getD i emptyResult))
      (List.replicate tasks.length emptyResult)).length := h1
  rw [List.getElem?_eq_getElem h1'] at hx
  simpa [gatherRun] using hx

/-- C2: for every list of usernames and every completion order of the
underlying requests (a permutation of the task indices), the gather model
returns the results in input order: exactly one result per username, and
the result at position i carries the username at position i. -/
theorem c2_fetch_all_order (users : List String) (net : Nat → HttpOutcome)
    (sched : List Nat) (hsched : sched.Perm (List.range users.length)) :
    gatherRun (fetch_all users net) sched = fetch_all users net ∧
    (fetch_all users net).length = users.length ∧
    (∀ i, i < users.length →
      ((fetch_all users net).getD i emptyResult).user = users.getD i "") := by
  have hlen : (fetch_all users net).length = users.length := by simp [fetch_all]
  refine ⟨?_, hlen, ?_⟩
  · apply gatherRun_eq_of_covering
    intro i hi
    rw [hlen] at hi
    exact hsched.mem_iff.mpr (List.mem_range.mpr hi)
  · intro i hi
    have h1 : i < (fetch_all users net).length := hlen ▸ hi
    rw [List.getD_eq_getElem?_getD, List.getElem?_eq_getElem h1]
    have h2 : i < (List.range users.length).length := by simpa using hi
    simp [fetch_all, fetch_keys_user]

theorem c2_witness :
    gatherRun (fetch_all ["a", "b"] (fun _ => HttpOutcome.timeout)) [1, 0] =
      fetch_all ["a", "b"] (fun _ => HttpOutcome.timeout) ∧
    (fetch_all ["a", "b"] (fun _ => HttpOutcome.timeout)).length = 2 ∧
    (∀ i, i < (["a", "b"] : List String).length →
      ((fetch_all ["a", "b"] (fun _ => HttpOutcome.timeout)).getD i emptyResult).user =
        (["a", "b"] : List String).getD i "") := by
  have h := c2_fetch_all_order ["a", "b"] (fun _ => HttpOutcome.timeout) [1, 0] (by decide)
  exact ⟨h.1, h.2.1, h.2.2⟩

theorem applyTrace_stderrMap (fs : FS) (msgs : List String) (tr : List Effect) :
    applyTrace fs (msgs.map Effect.stderr ++ tr) = applyTrace fs tr := by
  induction msgs with
  | nil => rfl
  | cons m ms ih => exact ih

theorem exitCode_stderrMap (msgs : List String) (tr : List Effect) :
    exitCode (msgs.map Effect.stderr ++ tr) = exitCode tr := by
  induction msgs with
  | nil => rfl
  | cons m ms ih => exact ih

theorem applyTrace_diagPre (fs : FS) (results : List FetchResult) (inline : Bool)
    (tr : List Effect) :
    applyTrace fs (diagPre results inline ++ tr) = applyTrace fs tr := by
  rw [diagPre, List.append_assoc, applyTrace_stderrMap]
  by_cases hb : (format_results results inline).2
  · simp [hb]
    rfl
  · simp [hb]

theorem exitCode_diagPre (results : List FetchResult) (inline : Bool)
    (tr : List Effect) :
    exitCode (diagPre results inline ++ tr) = exitCode tr := by
  rw [diagPre, List.append_assoc, exitCode_stderrMap]
  by_cases hb : (format_results results inline).2
  · simp [hb]
    rfl
  · simp [hb]

theorem getD_range_map (l : List String) :
    (List.range l.length).map (fun i => l.getD i "") = l := by
  apply List.ext_getElem (by simp)
  intro n h1 h2
  simp [List.getD_eq_getElem?_getD, List.getElem?_eq_getElem h2]

/-- C3: with the json flag set, the run prints exactly one pretty-printed
JSON rendering of the structured data to stdout — one entry per input
username, in input order, erred users included, keys as the list of key
lines (empty when the keys field is absent) and error passed through (null
on success) — and regardless of the append, output, inline and force flags
no other effect occurs: the text formatter is bypassed, no file is touched,
and the exit code is 0. -/
theorem c3_json_mode (users : List String) (net : Nat → HttpOutcome) (fs : FS)
    (inline append force : Bool) (output : Option String) :
    runMain ⟨users, inline, true, append, output, force⟩ net fs =
      [Effect.stdout (jsonDumps (jsonData (fetch_all users net)))] ∧
    (jsonData (fetch_all users net)).map JsonEntry.user = users ∧
    (jsonData (fetch_all users net)).map JsonEntry.error =
      (fetch_all users net).map FetchResult.error ∧
    (jsonData (fetch_all users net)).map JsonEntry.keys =
      (fetch_all users net).map
        (fun r => if strTruthy r.keys then splitlines (r.keys.getD "") else []) ∧
    exitCode (runMain ⟨users, inline, true, append, output, force⟩ net fs) = 0 ∧
    applyTrace fs (runMain ⟨users, inline, true, append, output, force⟩ net fs) = fs := by
  have h1 : runMain ⟨users, inline, true, append, output, force⟩ net fs =
      [Effect.stdout (jsonDumps (jsonData (fetch_all users net)))] := rfl
  refine ⟨h1, ?_, ?_, ?_, ?_, ?_⟩
  · rw [jsonData, List.map_map]
    have hcomp : (JsonEntry.user ∘ fun r : FetchResult =>
        (⟨r.user, if strTruthy r.keys then splitlines (r.keys.getD "") else [],
          r.error⟩ : JsonEntry)) = fun r : FetchResult => r.user := rfl
    rw [hcomp, fetch_all, List.map_map]
    have h2 : ((fun r : FetchResult => r.user) ∘
        fun i => fetch_keys (users.getD i "") (net i)) =
        fun i => users.getD i "" := by
      funext i
      exact fetch_keys_user _ _
    rw [h2, getD_range_map]
  · rw [jsonData, List.map_map]
    rfl
  · rw [jsonData, List.map_map]
    rfl
  · rw [h1]
    rfl
  · rw [h1]
    rfl

/-- C7: on users alice and ghost404, where the first request returns 200
with body "ssh-rsa AAA... \n" and the second returns 404, the default
text-mode run emits exactly the diagnostic "ghost404: User not found" and a
blank separator on the diagnostic channel, prints the payload
"# alice\nssh-rsa AAA...\n" to stdout, and exits with code 0. -/
theorem c7_scenario :
    runMain ⟨["alice", "ghost404"], false, false, false, none, false⟩
        (fun i => if i = 0 then HttpOutcome.response 200 "ssh-rsa AAA... \n"
          else HttpOutcome.response 404 "")
        (fun _ => none) =
      [Effect.stderr "ghost404: User not found", Effect.stderr "",
       Effect.stdout "# alice\nssh-rsa AAA...\n"] ∧
    exitCode (runMain ⟨["alice", "ghost404"], false, false, false, none, false⟩
        (fun i => if i = 0 then HttpOutcome.response 200 "ssh-rsa AAA... \n"
          else HttpOutcome.response 404 "")
        (fun _ => none)) = 0 := by
  constructor <;> decide

/-- C8 counterexample: in a text-mode run where every user erred, the
program emits the diagnostic "No keys fetched." — with a trailing period —
so the exact diagnostic string "No keys fetched" stated by the claim never
appears in the trace. -/
theorem c8_counterexample :
    runMain ⟨["ghost"], false, false, false, none, false⟩
        (fun _ => HttpOutcome.response 404 "") (fun _ => none) =
      [Effect.stderr "ghost: User not found", Effect.stderr "No keys fetched."] ∧
    Effect.stderr "No keys fetched" ∉
      runMain ⟨["ghost"], false, false, false, none, false⟩
        (fun _ => HttpOutcome.response 404 "") (fun _ => none) := by
  constructor <;> decide

/-- C8 (amended): in text mode, when the normalized payload trims to empty,
the run emits the per-user diagnostics followed by "No keys fetched." (with
a trailing period) on the diagnostic channel, exits with code 0, and leaves
the filesystem untouched, for every append, output and force configuration. -/
theorem c8_empty_payload (users : List String) (net : Nat → HttpOutcome) (fs : FS)
    (inline append force : Bool) (output : Option String)
    (hempty : pyStrip (format_results (fetch_all users net) inline).1 = "") :
    runMain ⟨users, inline, false, append, output, force⟩ net fs =
      (formatDiags (fetch_all users net) inline).map Effect.stderr ++
        [Effect.stderr "No keys fetched."] ∧
    exitCode (runMain ⟨users, inline, false, append, output, force⟩ net fs) = 0 ∧
    applyTrace fs (runMain ⟨users, inline, false, append, output, force⟩ net fs) = fs := by
  have h1 : runMain ⟨users, inline, false, append, output, force⟩ net fs =
      (formatDiags (fetch_all users net) inline).map Effect.stderr ++
        [Effect.stderr "No keys fetched."] := by
    simp [runMain, hempty]
  refine ⟨h1, ?_, ?_⟩
  · rw [h1, exitCode_stderrMap]
    rfl
  · rw [h1, applyTrace_stderrMap]
    rfl

theorem c8_witness :
    pyStrip (format_results
      (fetch_all ["ghost"] (fun _ => HttpOutcome.response 404 "")) false).1 = "" ∧
    runMain ⟨["ghost"], false, false, true, some "ak", true⟩
        (fun _ => HttpOutcome.response 404 "") (fun _ => none) =
      (formatDiags (fetch_all ["ghost"] (fun _ => HttpOutcome.response 404 ""))
          false).map Effect.stderr ++ [Effect.stderr "No keys fetched."] ∧
    exitCode (runMain ⟨["ghost"], false, false, true, some "ak", true⟩
        (fun _ => HttpOutcome.response 404 "") (fun _ => none)) = 0 := by
  have h := c8_empty_payload ["ghost"] (fun _ => HttpOutcome.response 404 "")
    (fun _ => none) false true true (some "ak") (by decide)
  exact ⟨by decide, h.1, h.2.1⟩

/-- C4 counterexample: with an explicit output path that already exists, no
force flag, non-append non-JSON mode, but a payload that trims to empty
(every user erred), the process exits with code 0 — not a non-zero code as
the claim states — and stops at the "No keys fetched." notice. -/
theorem c4_counterexample :
    ((fun p => if p = "out.txt" then some "old" else none : FS) "out.txt" = some "old") ∧
    exitCode (runMain ⟨["ghost"], false, false, false, some "out.txt", false⟩
        (fun _ => HttpOutcome.response 404 "")
        (fun p => if p = "out.txt" then some "old" else none)) = 0 ∧
    applyTrace (fun p => if p = "out.txt" then some "old" else none)
        (runMain ⟨["ghost"], false, false, false, some "out.txt", false⟩
          (fun _ => HttpOutcome.response 404 "")
          (fun p => if p = "out.txt" then some "old" else none)) "out.txt" =
      some "old" := by
  refine ⟨rfl, by decide, by decide⟩

/-- C4 (amended): in non-append non-JSON mode with an explicit non-empty
output path and a payload that does not trim to empty, if the target file
exists and force is not set the run emits the refusal diagnostic and
terminates with exit code 1, having performed no file operation at all — no
write and no parent-directory creation — so the filesystem is unchanged;
if the file does not exist or force is set, the run creates parent
directories, writes the payload to the file (overwriting), reports the
action and exits 0, leaving every other path untouched. -/
theorem c4_write_refusal_and_force (users : List String) (net : Nat → HttpOutcome)
    (fs : FS) (inline force : Bool) (out : String) (hout : out ≠ "")
    (hpayload : pyStrip (format_results (fetch_all users net) inline).1 ≠ "") :
    ((fs out).isSome = true → force = false →
      runMain ⟨users, inline, false, false, some out, force⟩ net fs =
        diagPre (fetch_all users net) inline ++
          [Effect.stderr ("File " ++ out ++ " already exists. Use --force to overwrite."),
           Effect.exit 1] ∧
      exitCode (runMain ⟨users, inline, false, false, some out, force⟩ net fs) = 1 ∧
      applyTrace fs (runMain ⟨users, inline, false, false, some out, force⟩ net fs) = fs) ∧
    ((fs out = none ∨ force = true) →
      runMain ⟨users, inline, false, false, some out, force⟩ net fs =
        diagPre (fetch_all users net) inline ++
          [Effect.mkdirParents out,
           Effect.writeFile out (format_results (fetch_all users net) inline).1,
           Effect.stderr ("Wrote keys to " ++ out)] ∧
      exitCode (runMain ⟨users, inline, false, false, some out, force⟩ net fs) = 0 ∧
      applyTrace fs (runMain ⟨users, inline, false, false, some out, force⟩ net fs) out =
        some (format_results (fetch_all users net) inline).1 ∧
      (∀ p, p ≠ out →
        applyTrace fs (runMain ⟨users, inline, false, false, some out, force⟩ net fs) p =
          fs p)) := by
  have hmain : runMain ⟨users, inline, false, false, some out, force⟩ net fs =
      diagPre (fetch_all users net) inline ++
        sinkRest ⟨users, inline, false, false, some out, force⟩ fs
          (format_results (fetch_all users net) inline).1 := by
    simp [runMain, hpayload]
  constructor
  · intro hex hforce
    have hsink : sinkRest ⟨users, inline, false, false, some out, force⟩ fs
        (format_results (fetch_all users net) inline).1 =
        [Effect.stderr ("File " ++ out ++ " already exists. Use --force to overwrite."),
         Effect.exit 1] := by
      simp [sinkRest, strTruthy, hout, hex, hforce]
    rw [hmain, hsink]
    refine ⟨rfl, ?_, ?_⟩
    · rw [exitCode_diagPre]
      rfl
    · rw [applyTrace_diagPre]
      rfl
  · intro hcase
    have hsink : sinkRest ⟨users, inline, false, false, some out, force⟩ fs
        (format_results (fetch_all users net) inline).1 =
        [Effect.mkdirParents out,
         Effect.writeFile out (format_results (fetch_all users net) inline).1,
         Effect.stderr ("Wrote keys to " ++ out)] := by
      rcases hcase with hnone | htrue
      · simp [sinkRest, strTruthy, hout, hnone]
      · simp [sinkRest, strTruthy, hout, htrue]
    rw [hmain, hsink]
    refine ⟨rfl, ?_, ?_, ?_⟩
    · rw [exitCode_diagPre]
      rfl
    · rw [applyTrace_diagPre]
      simp [applyTrace, applyEffect]
    · intro p hp
      rw [applyTrace_diagPre]
      simp [applyTrace, applyEffect, hp]

theorem c4_witness :
    exitCode (runMain ⟨["alice"], false, false, false, some "out.txt", false⟩
        (fun _ => HttpOutcome.response 200 "ssh-rsa KEY")
        (fun p => if p = "out.txt" then some "old" else none)) = 1 ∧
    applyTrace (fun p => if p = "out.txt" then some "old" else none)
        (runMain ⟨["alice"], false, false, false, some "out.txt", false⟩
          (fun _ => HttpOutcome.response 200 "ssh-rsa KEY")
          (fun p => if p = "out.txt" then some "old" else none)) "out.txt" =
      some "old" := by
  have h := (c4_write_refusal_and_force ["alice"]
      (fun _ => HttpOutcome.response 200 "ssh-rsa KEY")
      (fun p => if p = "out.txt" then some "old" else none) false false "out.txt"
      (by decide) (by decide)).1 (by decide) rfl
  refine ⟨h.2.1, ?_⟩
  rw [h.2.2]
  rfl

/-- C10 counterexample: in append mode with an existing destination file and
a payload whose trimmed core is empty (every user erred), nothing is
appended: the payload is the single newline string, yet the file content
stays "X" rather than becoming "X" followed by the payload, so the claim
that the payload is always written after the existing content fails. -/
theorem c10_counterexample :
    (format_results (fetch_all ["ghost"] (fun _ => HttpOutcome.response 404 ""))
        false).1 = "\n" ∧
    applyTrace (fun p => if p = "ak" then some "X" else none)
        (runMain ⟨["ghost"], false, false, true, some "ak", false⟩
          (fun _ => HttpOutcome.response 404 "")
          (fun p => if p = "ak" then some "X" else none)) "ak" = some "X" ∧
    some "X" ≠ some ("X" ++ "\n") := by
  refine ⟨by decide, by decide, by decide⟩

/-- C10 (amended): in append mode with a payload that does not trim to
empty, an existing destination is never refused and the force flag is
irrelevant (the trace is identical for both force values): parent
directories of the target are created, the payload is appended after the
preserved existing content (the file is created when missing), the action
is reported, every other path is untouched, and the exit code is 0 — the
non-zero "already exists" termination cannot occur in append mode. -/
theorem c10_append_no_refusal (users : List String) (net : Nat → HttpOutcome)
    (fs : FS) (inline force : Bool) (output : Option String)
    (hpayload : pyStrip (format_results (fetch_all users net) inline).1 ≠ "") :
    runMain ⟨users, inline, false, true, output, force⟩ net fs =
      diagPre (fetch_all users net) inline ++
        [Effect.mkdirParents (appendTarget output),
         Effect.appendFile (appendTarget output)
           (format_results (fetch_all users net) inline).1,
         Effect.stderr ("Appended keys to " ++ appendTarget output)] ∧
    runMain ⟨users, inline, false, true, output, true⟩ net fs =
      runMain ⟨users, inline, false, true, output, false⟩ net fs ∧
    exitCode (runMain ⟨users, inline, false, true, output, force⟩ net fs) = 0 ∧
    applyTrace fs (runMain ⟨users, inline, false, true, output, force⟩ net fs)
        (appendTarget output) =
      some ((fs (appendTarget output)).getD "" ++
        (format_results (fetch_all users net) inline).1) ∧
    (∀ p, p ≠ appendTarget output →
      applyTrace fs (runMain ⟨users, inline, false, true, output, force⟩ net fs) p =
        fs p) := by
  have hmain : ∀ f : Bool, runMain ⟨users, inline, false, true, output, f⟩ net fs =
      diagPre (fetch_all users net) inline ++
        [Effect.mkdirParents (appendTarget output),
         Effect.appendFile (appendTarget output)
           (format_results (fetch_all users net) inline).1,
         Effect.stderr ("Appended keys to " ++ appendTarget output)] := by
    intro f
    simp [runMain, hpayload, sinkRest]
  refine ⟨hmain force, (hmain true).trans (hmain false).symm, ?_, ?_, ?_⟩
  · rw [hmain force, exitCode_diagPre]
    rfl
  · rw [hmain force, applyTrace_diagPre]
    simp [applyTrace, applyEffect]
  · intro p hp
    rw [hmain force, applyTrace_diagPre]
    simp [applyTrace, applyEffect, hp]

theorem c10_witness :
    exitCode (runMain ⟨["alice"], false, false, true, some "ak", false⟩
        (fun _ => HttpOutcome.response 200 "ssh-rsa KEY")
        (fun p => if p = "ak" then some "X" else none)) = 0 ∧
    applyTrace (fun p => if p = "ak" then some "X" else none)
        (runMain ⟨["alice"], false, false, true, some "ak", false⟩
          (fun _ => HttpOutcome.response 200 "ssh-rsa KEY")
          (fun p => if p = "ak" then some "X" else none)) "ak" =
      some ("X" ++ "# alice\nssh-rsa KEY\n") := by
  have h := c10_append_no_refusal ["alice"]
      (fun _ => HttpOutcome.response 200 "ssh-rsa KEY")
      (fun p => if p = "ak" then some "X" else none) false false (some "ak")
      (by decide)
  exact ⟨h.2.2.1, h.2.2.2.1.trans (by decide)⟩

end Ghkeys
